import Mathlib

/-!
Shallow embedding of `check_binkp_node.py`: the BinkP v1.0 frame decoder
(the `construct` Struct `binkp10format` wrapped in `GreedyRange`), the
TIME-message extraction loop, the drift computation, and the surrounding
transport/exception control flow of `binkp_node_parse` and
`BinkpNodeCheck.probe`.

Bytes are modelled as `Nat` (values < 256 where a buffer is a byte buffer),
text as `List Char`, instants as whole seconds (`Int`); sub-second
behaviour (`replace(microsecond=0)`) is outside every claim and collapses
to the identity at this granularity. External effects — the socket, the
`recv` loop, `dateparser.parse`, and the wall clock — are supplied by an
explicit environment `Env`.
-/

/-- A decoded BinkP v1.0 frame, mirroring the fields of the `construct`
Struct `binkp10format`: `type`/`length`/`cmdargs` are single bytes and
`string` is the `length - 1` payload bytes. -/
structure Frame where
  type : Nat
  length : Nat
  cmdargs : Nat
  string : List Nat
deriving DecidableEq, Repr

/-- One parse step of the `construct` Struct `binkp10format`: read three
header bytes, then `length - 1` payload bytes.  Fails (as the underlying
`stream_read` does) when fewer than 3 header bytes remain, when
`length = 0` (a negative `Bytes` count), or when fewer than `length - 1`
payload bytes remain. -/
def binkp10format : List Nat → Option (Frame × List Nat)
  | t :: l :: c :: rest =>
    if 1 ≤ l ∧ l - 1 ≤ rest.length then
      some (⟨t, l, c, rest.take (l - 1)⟩, rest.drop (l - 1))
    else none
  | _ => none

/-- Fuel-indexed loop of `construct`'s `GreedyRange`: repeatedly parse the
subconstruct; on the first failure rewind and return the frames parsed so
far (`GreedyRange` catches the subconstruct's exception and stops — it
never propagates a parse error). -/
def greedyRangeAux : Nat → List Nat → List Frame
  | 0, _ => []
  | fuel + 1, buf =>
    match binkp10format buf with
    | none => []
    | some (f, rest) => f :: greedyRangeAux fuel rest

/-- `GreedyRange(binkp10format).parse(buf)`: each successful step consumes
at least 3 bytes, so `buf.length` is sufficient fuel. -/
def greedyRangeParse (buf : List Nat) : List Frame :=
  greedyRangeAux buf.length buf

/-- The wire bytes of a frame: 3 header bytes followed by the payload. -/
def encodeFrame (f : Frame) : List Nat :=
  f.type :: f.length :: f.cmdargs :: f.string

/-- A well-formed frame of a byte buffer: the declared length is at least
1, the payload holds exactly `length - 1` bytes, and every field is a
byte. -/
abbrev wfFrame (f : Frame) : Prop :=
  1 ≤ f.length ∧ f.string.length = f.length - 1 ∧
  f.type < 256 ∧ f.length < 256 ∧ f.cmdargs < 256 ∧ ∀ b ∈ f.string, b < 256

/-- The literal text `TIME ` (the prefix tested by
`d_item.startswith('TIME ')` and the separator of
`d_item.split('TIME ')`). -/
def TIMEP : List Char := ['T', 'I', 'M', 'E', ' ']

/-- `bytes.decode('ascii')` is strict: it fails on any byte `≥ 0x80` and
otherwise maps each byte to the character of the same code point. -/
def pyDecodeAscii (bs : List Nat) : Option (List Char) :=
  if ∀ b ∈ bs, b < 128 then some (bs.map Char.ofNat) else none

/-- Fuel-indexed scan implementing Python `str.split(sep)` for a non-empty
separator: chunks between non-overlapping occurrences of `sep`, scanned
left to right. -/
def pySplitGo (sep : List Char) : Nat → List Char → List (List Char)
  | _, [] => [[]]
  | 0, s => [s]
  | fuel + 1, c :: cs =>
    if sep.isPrefixOf (c :: cs) then
      [] :: pySplitGo sep fuel (List.drop (sep.length - 1) cs)
    else
      match pySplitGo sep fuel cs with
      | [] => [[c]]
      | chunk :: rest => (c :: chunk) :: rest

/-- Python `s.split(sep)` (each scan step consumes at least one character,
so `s.length` is sufficient fuel). -/
def pySplit (sep s : List Char) : List (List Char) :=
  pySplitGo sep s.length s

/-- The source's `d_item.split('TIME ')[1]`: the text handed to
`dateparser.parse`.  The `[1]` index exists whenever `d_item` starts with
`TIME `, which is the only context in which the source evaluates it. -/
def nodeTimeOf (d_item : List Char) : List Char :=
  (pySplit TIMEP d_item).getD 1 []

/-- Whether `sep` occurs as a contiguous subsequence of `s`. -/
def containsSeq (sep : List Char) : List Char → Bool
  | [] => sep.isPrefixOf []
  | c :: cs => sep.isPrefixOf (c :: cs) || containsSeq sep cs

/-- Whether a frame's payload decodes as ASCII to text starting with
`TIME ` — the condition selecting a frame in the source's scan loop. -/
def isTimeFrame (f : Frame) : Bool :=
  match pyDecodeAscii f.string with
  | none => false
  | some d_item => TIMEP.isPrefixOf d_item

/-- The extraction stage of the scan loop, up to the `dateparser.parse`
call: the first frame whose payload decodes as ASCII to text starting with
`TIME ` yields `split('TIME ')[1]`; frames that fail ASCII decoding are
skipped; with no match the scan is exhausted. -/
def extractTimeText : List Frame → Option (List Char)
  | [] => none
  | item :: rest =>
    match pyDecodeAscii item.string with
    | none => extractTimeText rest
    | some d_item =>
      if TIMEP.isPrefixOf d_item then some (nodeTimeOf d_item)
      else extractTimeText rest

/-- A Python `datetime` at whole-second granularity: the wall-clock
reading and, when aware, the fixed UTC offset of its `tzinfo` in
seconds. -/
structure PyDateTime where
  wall : Int
  tz : Option Int
deriving DecidableEq, Repr

/-- `datetime.now(tz)` at the true instant `instant` (seconds on the
absolute time line): with an offset the aware wall reading is
`instant + off`; with `tzinfo = None` the naive reading uses the local
system zone's offset. -/
def pyNow (instant localOff : Int) : Option Int → PyDateTime
  | some off => ⟨instant + off, some off⟩
  | none => ⟨instant + localOff, none⟩

/-- Python `datetime` subtraction in seconds: aware minus aware compares
true instants (wall minus offset); naive minus naive compares wall
readings.  The source only ever subtracts datetimes of equal awareness,
since `today` is built from `binkpdate.tzinfo` itself. -/
def pySub (a b : PyDateTime) : Int :=
  match a.tz, b.tz with
  | some oa, some ob => (a.wall - oa) - (b.wall - ob)
  | _, _ => a.wall - b.wall

/-- The diagnostics printed by `binkp_node_parse`, one per `print` call. -/
inductive Diag
  | errorReceivingData
  | noDataReceived
  | errorParsingBinkp
  | failedToParseDate
  | errorProcessingItem
  | noTimeMessageFound
  | connectionError
deriving DecidableEq, Repr

/-- One `s.recv(128)` outcome: a returned chunk (the empty chunk meaning
the peer closed), a `socket.timeout`, or any other receive exception. -/
inductive RecvEvent
  | chunk (data : List Nat)
  | timedOut
  | ioErr
deriving DecidableEq, Repr

/-- The outcome of `s.connect`: success, `socket.timeout`, or a refused /
unreachable connection (`socket.error`). -/
inductive ConnectOutcome
  | success
  | timedOut
  | refused
deriving DecidableEq, Repr

/-- The world one probe runs against: the local zone offset, the true
instants at which the probe's three `datetime.now` calls happen (function
entry, `datetime.now(tzinfo)` during drift computation, and the final
`datetime.now()`), the ambient instants of connection success and loop
termination (never sampled by the source, present to state claims about
them), the socket and connect outcomes, the `recv` event stream, and the
external `dateparser.parse` function. -/
structure Env where
  localOff : Int
  entryAt : Int
  socketOk : Bool
  connect : ConnectOutcome
  connectedAt : Int
  recvEvents : List RecvEvent
  loopEndAt : Int
  dateparse : List Char → Option PyDateTime
  todayAt : Int
  finalAt : Int

/-- What one call of `binkp_node_parse` leaves behind: the returned value
(`none` is Python's `None`), the diagnostics printed in order, and whether
the socket ended closed. -/
structure ProbeRun where
  result : Option Int
  diags : List Diag
  socketClosed : Bool

/-- The `while True: data = s.recv(128)` loop: an empty chunk or a
`socket.timeout` breaks the loop keeping the accumulated buffer; any other
receive exception makes the whole function return `None`. -/
def drain : List RecvEvent → Option (List Nat)
  | [] => some []
  | .chunk data :: rest =>
    if data = [] then some []
    else (drain rest).map (fun tail => data ++ tail)
  | .timedOut :: _ => some []
  | .ioErr :: _ => none

/-- The `for item in x:` loop of `binkp_node_parse`: skip frames whose
payload is not ASCII (the `UnicodeDecodeError` lands in the
`except ... continue` branch), and at the first frame whose text starts
with `TIME ` run `dateparser.parse` on `split('TIME ')[1]` and either fail
(`None`) or return `abs(delta - req_duration)`.  Falling off the loop
prints the no-TIME diagnostic and returns `None`. -/
def processItems (env : Env) (start_time : Int) : List Frame → Option Int × List Diag
  | [] => (none, [Diag.noTimeMessageFound])
  | item :: rest =>
    match pyDecodeAscii item.string with
    | none =>
      ((processItems env start_time rest).1,
        Diag.errorProcessingItem :: (processItems env start_time rest).2)
    | some d_item =>
      if TIMEP.isPrefixOf d_item then
        match env.dateparse (nodeTimeOf d_item) with
        | none => (none, [Diag.failedToParseDate])
        | some binkpdate =>
          let today := pyNow env.todayAt env.localOff binkpdate.tz
          let delta := pySub today binkpdate
          let req_duration := (env.finalAt + env.localOff) - start_time
          (some |delta - req_duration|, [])
      else processItems env start_time rest

/-- The `try ... except (socket.error, socket.timeout)` body of
`binkp_node_parse`: sample `start_time` at entry, connect, sleep, drain,
reject an empty buffer, decode with `GreedyRange`, scan for the TIME
frame, and compute the drift.  Connection failures (including a failing
`socket.socket` call, whose `OSError` the outer `except socket.error`
also catches) print the connection diagnostic and return `None`. -/
def binkp_node_parse_body (env : Env) : Option Int × List Diag :=
  let start_time := env.entryAt + env.localOff
  if env.socketOk = false then (none, [Diag.connectionError])
  else
    match env.connect with
    | .timedOut => (none, [Diag.connectionError])
    | .refused => (none, [Diag.connectionError])
    | .success =>
      match drain env.recvEvents with
      | none => (none, [Diag.errorReceivingData])
      | some realdata =>
        if realdata = [] then (none, [Diag.noDataReceived])
        else processItems env start_time (greedyRangeParse realdata)

/-- `binkp_node_parse`: the try body wrapped in the `finally` block, which
closes the socket whenever one was created (`if s: s.close()`), on every
exit path of the body. -/
def binkp_node_parse (env : Env) : ProbeRun :=
  { result := (binkp_node_parse_body env).1,
    diags := (binkp_node_parse_body env).2,
    socketClosed := env.socketOk }

/-- `BinkpNodeCheck.probe`: the metric value handed to the monitoring
harness — `-1` when `binkp_node_parse` returned `None`, the drift
otherwise. -/
def probe (env : Env) : Int :=
  match (binkp_node_parse env).result with
  | none => -1
  | some time_diff => time_diff

/-- The ASCII bytes of `TIME 12:00`. -/
def timeBytes : List Nat := [84, 73, 77, 69, 32, 49, 50, 58, 48, 48]

/-- The wire bytes of a frame sequence laid end to end. -/
def encodeFrames : List Frame → List Nat
  | [] => []
  | f :: fs => encodeFrame f ++ encodeFrames fs

/-- A frame whose payload text is `TIME 12 TIME 34` — a timestamp text
containing a second occurrence of the `TIME ` prefix. -/
def tfSplit : Frame :=
  ⟨1, 16, 0, [84, 73, 77, 69, 32, 49, 50, 32, 84, 73, 77, 69, 32, 51, 52]⟩

/-- A well-formed non-TIME frame with payload `A`. -/
def frA : Frame := ⟨1, 2, 0, [65]⟩

/-- A well-formed non-TIME frame with payload `B`. -/
def frB : Frame := ⟨1, 2, 0, [66]⟩

/-- A well-formed frame with payload `TIME 12:00`. -/
def frT : Frame := ⟨1, 11, 0, timeBytes⟩

/-- A frame whose payload is the UTF-8 text `TIME é` — valid UTF-8
beginning with `TIME `, but not ASCII (bytes `0xC3 0xA9`). -/
def frUtf8 : Frame := ⟨1, 8, 0, [84, 73, 77, 69, 32, 195, 169]⟩

/-- A base environment for concrete runs. -/
def baseEnv : Env :=
  { localOff := 0, entryAt := 0, socketOk := true, connect := .success,
    connectedAt := 0, recvEvents := [], loopEndAt := 0,
    dateparse := fun _ => none, todayAt := 0, finalAt := 0 }

/-- A run whose single received chunk is truncated inside a frame: the
header `01 06 00` declares a 5-byte payload but only the 4 bytes `TIME`
follow. -/
def envTrunc : Env :=
  { baseEnv with recvEvents := [.chunk [1, 6, 0, 84, 73, 77, 69], .timedOut] }

/-- A run whose connection succeeds but delivers no bytes. -/
def envEmptyResp : Env :=
  { baseEnv with recvEvents := [.timedOut] }

/-- A run delivering one well-formed frame with payload `A` — no TIME
message. -/
def envNoTime : Env :=
  { baseEnv with recvEvents := [.chunk [1, 2, 0, 65], .timedOut] }

/-- A run with a naive parsed date and distinct ambient instants for
connection success (5) and loop end (9), entry at 0 and the final clock
sample at 12: the source's round-trip is 12, the spec's would be 4. -/
def envC6 : Env :=
  { baseEnv with
    recvEvents := [.chunk ([1, 11, 0] ++ timeBytes), .timedOut],
    connectedAt := 5, loopEndAt := 9, todayAt := 9, finalAt := 12,
    dateparse := fun s =>
      if s = ['1', '2', ':', '0', '0'] then some ⟨0, none⟩ else none }

/-- A successful aware-timezone run: the peer sends one frame `TIME 12:00`,
`dateparser` resolves it to wall 1000 at offset +3600. -/
def envOk : Env :=
  { baseEnv with
    recvEvents := [.chunk ([1, 11, 0] ++ timeBytes), .timedOut],
    connectedAt := 1, loopEndAt := 2, todayAt := 4600, finalAt := 7,
    dateparse := fun s =>
      if s = ['1', '2', ':', '0', '0'] then some ⟨1000, some 3600⟩ else none }

/-! ## Decoder lemmas -/

/-- Parsing the encoding of a well-formed frame recovers the frame and
leaves the rest of the buffer. -/
theorem binkp10format_encode (f : Frame) (rest : List Nat) (h : wfFrame f) :
    binkp10format (encodeFrame f ++ rest) = some (f, rest) := by
  obtain ⟨h1, h2, -⟩ := h
  simp only [encodeFrame, List.cons_append, binkp10format]
  rw [if_pos ⟨h1, by simp [← h2]⟩, ← h2, List.take_left, List.drop_left]

/-- A successful frame parse consumes at least the 3 header bytes. -/
theorem binkp10format_rest_length {buf : List Nat} {f : Frame} {rest : List Nat}
    (h : binkp10format buf = some (f, rest)) : rest.length + 3 ≤ buf.length := by
  match buf with
  | [] => exact absurd h (by simp [binkp10format])
  | [t] => exact absurd h (by simp [binkp10format])
  | [t, l] => exact absurd h (by simp [binkp10format])
  | t :: l :: c :: r =>
    simp only [binkp10format] at h
    split at h
    · cases h
      simp only [List.length_cons, List.length_drop]
      omega
    · cases h

/-- The fuel of the `GreedyRange` loop is irrelevant once it covers the
buffer length. -/
theorem greedyRangeAux_eq_of_le :
    ∀ (n m : Nat) (buf : List Nat), buf.length ≤ n → buf.length ≤ m →
      greedyRangeAux n buf = greedyRangeAux m buf := by
  intro n
  induction n with
  | zero =>
    intro m buf hn _
    have hb : buf = [] := List.eq_nil_of_length_eq_zero (Nat.le_zero.mp hn)
    subst hb
    cases m <;> simp [greedyRangeAux, binkp10format]
  | succ n ih =>
    intro m buf hn hm
    cases m with
    | zero =>
      have hb : buf = [] := List.eq_nil_of_length_eq_zero (Nat.le_zero.mp hm)
      subst hb
      simp [greedyRangeAux, binkp10format]
    | succ m =>
      simp only [greedyRangeAux]
      cases hp : binkp10format buf with
      | none => rfl
      | some pr =>
        obtain ⟨f, rest⟩ := pr
        have hlen := binkp10format_rest_length hp
        show f :: greedyRangeAux n rest = f :: greedyRangeAux m rest
        rw [ih m rest (by omega) (by omega)]

/-- One unfolding step of `GreedyRange` on a buffer whose head frame
parses. -/
theorem greedyRangeParse_cons {buf : List Nat} {f : Frame} {rest : List Nat}
    (h : binkp10format buf = some (f, rest)) :
    greedyRangeParse buf = f :: greedyRangeParse rest := by
  have hlen := binkp10format_rest_length h
  unfold greedyRangeParse
  obtain ⟨k, hk⟩ : ∃ k, buf.length = k + 1 := ⟨buf.length - 1, by omega⟩
  rw [hk]
  simp only [greedyRangeAux, h]
  exact congrArg (f :: ·) (greedyRangeAux_eq_of_le k rest.length rest (by omega) (le_refl _))

/-! ## Extraction lemmas -/

/-- A list is a `isPrefixOf`-prefix of itself followed by anything. -/
theorem isPrefixOf_append_self (l t : List Char) : l.isPrefixOf (l ++ t) = true := by
  simp

/-- On text containing no occurrence of the separator, the split scan
returns the whole text as the single chunk. -/
theorem pySplitGo_no_occur (sep : List Char) (s : List Char) :
    ∀ (fuel : Nat), containsSeq sep s = false → s.length ≤ fuel →
      pySplitGo sep fuel s = [s] := by
  induction s with
  | nil => intro fuel _ _; cases fuel <;> rfl
  | cons c cs ih =>
    intro fuel hc hl
    cases fuel with
    | zero => simp at hl
    | succ k =>
      simp only [containsSeq, Bool.or_eq_false_iff] at hc
      simp only [pySplitGo, hc.1, Bool.false_eq_true, if_false]
      rw [ih k hc.2 (by simp only [List.length_cons] at hl; omega)]

/-- When the timestamp text contains no further occurrence of `TIME `,
`split('TIME ')[1]` is exactly the text after the prefix. -/
theorem nodeTimeOf_clean_suffix (suff : List Char)
    (h : containsSeq TIMEP suff = false) : nodeTimeOf (TIMEP ++ suff) = suff := by
  show (pySplitGo TIMEP (TIMEP ++ suff).length (TIMEP ++ suff)).getD 1 [] = suff
  have hlen : (TIMEP ++ suff).length = suff.length + 4 + 1 := by
    simp [TIMEP]
  rw [hlen]
  show (pySplitGo TIMEP (suff.length + 4 + 1)
      ('T' :: 'I' :: 'M' :: 'E' :: ' ' :: suff)).getD 1 [] = suff
  rw [show suff.length + 4 + 1 = (suff.length + 4) + 1 from rfl]
  simp only [pySplitGo, show TIMEP.isPrefixOf ('T' :: 'I' :: 'M' :: 'E' :: ' ' :: suff) = true
    from isPrefixOf_append_self TIMEP suff, if_true]
  simp only [TIMEP, List.length_cons, List.length_nil, List.drop_succ_cons, List.drop_zero]
  rw [pySplitGo_no_occur ['T', 'I', 'M', 'E', ' '] suff (suff.length + 4) h (by omega)]
  rfl

/-- The scan selects the first frame whose payload is ASCII text starting
with `TIME `, hands on `split('TIME ')[1]` of its text, and never looks at
the frames after it. -/
theorem extractTimeText_append_first (fs₁ : List Frame) (f : Frame) (fs₂ : List Frame)
    (d : List Char) (h1 : ∀ g ∈ fs₁, isTimeFrame g = false)
    (h2 : pyDecodeAscii f.string = some d) (h3 : TIMEP.isPrefixOf d = true) :
    extractTimeText (fs₁ ++ f :: fs₂) = some (nodeTimeOf d) := by
  induction fs₁ with
  | nil => simp [extractTimeText, h2, h3]
  | cons g gs ih =>
    have hg : isTimeFrame g = false := h1 g (by simp)
    have hrest : ∀ g' ∈ gs, isTimeFrame g' = false := fun g' hm => h1 g' (by simp [hm])
    cases hd : pyDecodeAscii g.string with
    | none => simpa [extractTimeText, hd] using ih hrest
    | some dg =>
      have hpg : TIMEP.isPrefixOf dg = false := by
        unfold isTimeFrame at hg
        rwa [hd] at hg
      simpa [extractTimeText, hd, hpg] using ih hrest

/-! ## Pipeline lemmas -/

/-- The returned value of the scan loop factors through the extraction
stage: the text of the first TIME frame is handed to `dateparser.parse`,
whose failure returns `None` and whose success yields
`abs(delta - req_duration)`. -/
theorem processItems_fst (env : Env) (st : Int) (fs : List Frame) :
    (processItems env st fs).1 =
      match extractTimeText fs with
      | none => none
      | some nt =>
        match env.dateparse nt with
        | none => none
        | some bd =>
          some |pySub (pyNow env.todayAt env.localOff bd.tz) bd -
                ((env.finalAt + env.localOff) - st)| := by
  induction fs with
  | nil => rfl
  | cons item rest ih =>
    cases hd : pyDecodeAscii item.string with
    | none => simpa [processItems, extractTimeText, hd] using ih
    | some d_item =>
      by_cases hp : TIMEP.isPrefixOf d_item = true
      · cases hq : env.dateparse (nodeTimeOf d_item) <;>
          simp [processItems, extractTimeText, hd, hp, hq]
      · simp only [Bool.not_eq_true] at hp
        simpa [processItems, extractTimeText, hd, hp] using ih

/-- Any value the scan loop returns is an absolute value, hence
non-negative. -/
theorem processItems_fst_nonneg (env : Env) (st : Int) (fs : List Frame) (d : Int)
    (h : (processItems env st fs).1 = some d) : 0 ≤ d := by
  rw [processItems_fst] at h
  split at h
  · cases h
  · split at h
    · cases h
    · cases h
      exact abs_nonneg _

/-- Any value `binkp_node_parse` returns other than `None` came out of
the scan loop, hence is non-negative. -/
theorem binkp_node_parse_result_nonneg (env : Env) (d : Int)
    (h : (binkp_node_parse env).result = some d) : 0 ≤ d := by
  have hb : (binkp_node_parse_body env).1 = some d := h
  unfold binkp_node_parse_body at hb
  simp only at hb
  split at hb
  · cases hb
  · split at hb
    · cases hb
    · cases hb
    · split at hb
      · cases hb
      · split at hb
        · cases hb
        · exact processItems_fst_nonneg env _ _ d hb

/-- The success path of `binkp_node_parse`: with a usable connection, a
non-empty buffer, a TIME frame found and a parsed date, the returned
drift is `abs((today - binkpdate) - (final_now - start_time))`. -/
theorem binkp_node_parse_success (env : Env) (buf : List Nat) (nt : List Char)
    (bd : PyDateTime) (h0 : env.socketOk = true) (h1 : env.connect = .success)
    (h2 : drain env.recvEvents = some buf) (h3 : buf ≠ [])
    (h4 : extractTimeText (greedyRangeParse buf) = some nt)
    (h5 : env.dateparse nt = some bd) :
    (binkp_node_parse env).result =
      some |pySub (pyNow env.todayAt env.localOff bd.tz) bd -
            ((env.finalAt + env.localOff) - (env.entryAt + env.localOff))| := by
  show (binkp_node_parse_body env).1 = _
  unfold binkp_node_parse_body
  rw [h0]
  simp only [Bool.true_eq_false, if_false, h1, h2, if_neg h3]
  rw [processItems_fst]
  simp only [h4, h5]

/-! ## Claims -/

/-- C1: decoding a buffer truncated inside a frame does not fail —
`GreedyRange` silently drops the truncated tail.  On the scenario-A buffer
`01 06 00` + `TIME` (the header declares a 5-byte payload, only 4 bytes
follow) the decoder returns the empty frame list, and the probe proceeds
to the no-TIME-message path instead of reporting a frame decode error. -/
theorem C1_truncated_frame_silently_dropped :
    greedyRangeParse [1, 6, 0, 84, 73, 77, 69] = [] ∧
    (binkp_node_parse envTrunc).result = none ∧
    (binkp_node_parse envTrunc).diags = [Diag.noTimeMessageFound] := by
  refine ⟨by decide, by decide, by decide⟩

/-- C2 counterexample: for the frame whose payload text is
`TIME 12 TIME 34`, the text handed to the date parser is `12 ` — the
suffix truncated at the second occurrence of `TIME ` — not the full,
byte-for-byte unchanged suffix `12 TIME 34` the claim requires. -/
theorem C2_split_truncation_counterexample :
    pyDecodeAscii tfSplit.string =
      some (TIMEP ++ ['1', '2', ' ', 'T', 'I', 'M', 'E', ' ', '3', '4']) ∧
    extractTimeText [tfSplit] = some ['1', '2', ' '] ∧
    ['1', '2', ' '] ≠ ['1', '2', ' ', 'T', 'I', 'M', 'E', ' ', '3', '4'] := by
  refine ⟨by decide, by decide, by decide⟩

/-- C2 amended: the first frame in wire order whose payload decodes to
text beginning with `TIME ` is selected and no frame after it is
inspected; the text handed to the date parser is `split('TIME ')[1]` of
the frame's text, which equals the payload text beyond the 5-character
prefix exactly when that suffix contains no further occurrence of
`TIME `. -/
theorem C2_first_time_frame_amended :
    (∀ (fs₁ : List Frame) (f : Frame) (fs₂ : List Frame) (d : List Char),
        (∀ g ∈ fs₁, isTimeFrame g = false) →
        pyDecodeAscii f.string = some d → TIMEP.isPrefixOf d = true →
        extractTimeText (fs₁ ++ f :: fs₂) = some (nodeTimeOf d)) ∧
    (∀ suff : List Char, containsSeq TIMEP suff = false →
        nodeTimeOf (TIMEP ++ suff) = suff) :=
  ⟨extractTimeText_append_first, nodeTimeOf_clean_suffix⟩

/-- C2 amended, witness at concrete frames: a non-TIME frame, then the
`TIME 12:00` frame, then another frame that is never inspected. -/
theorem C2_first_time_frame_amended_witness :
    (∀ g ∈ [frA], isTimeFrame g = false) ∧
    pyDecodeAscii frT.string = some (TIMEP ++ ['1', '2', ':', '0', '0']) ∧
    TIMEP.isPrefixOf (TIMEP ++ ['1', '2', ':', '0', '0']) = true ∧
    extractTimeText ([frA] ++ frT :: [frB]) =
      some (nodeTimeOf (TIMEP ++ ['1', '2', ':', '0', '0'])) ∧
    containsSeq TIMEP ['1', '2', ':', '0', '0'] = false ∧
    nodeTimeOf (TIMEP ++ ['1', '2', ':', '0', '0']) = ['1', '2', ':', '0', '0'] :=
  ⟨by decide, by decide, by decide,
   C2_first_time_frame_amended.1 [frA] frT [frB] (TIMEP ++ ['1', '2', ':', '0', '0'])
     (by decide) (by decide) (by decide),
   by decide,
   C2_first_time_frame_amended.2 ['1', '2', ':', '0', '0'] (by decide)⟩

/-- C3 counterexample: two probes failing for different reasons — an empty
response and a well-formed response with no TIME message — return the one
generic value `None`, and `probe` renders the no-TIME outcome as the
numeric metric value `-1`; the failure kinds are not distinguishable in
what the caller receives, and NotFound is exactly `-1`. -/
theorem C3_conflated_failures_counterexample :
    (binkp_node_parse envEmptyResp).result = none ∧
    (binkp_node_parse envNoTime).result = none ∧
    (binkp_node_parse envEmptyResp).result = (binkp_node_parse envNoTime).result ∧
    probe envNoTime = -1 := by
  refine ⟨by decide, by decide, by decide, by decide⟩

/-- C3 amended: every failure of `binkp_node_parse`, whatever its kind,
is returned as the single sentinel `None`, which `probe` maps to the
metric value `-1`; a successful probe returns its drift, which is
non-negative (an absolute value), so `-1` can only mean failure but no
failure kind is distinguishable from another in the returned value. -/
theorem C3_single_sentinel_amended :
    (∀ env : Env, (binkp_node_parse env).result = none → probe env = -1) ∧
    (∀ (env : Env) (d : Int), (binkp_node_parse env).result = some d →
      probe env = d ∧ 0 ≤ d) := by
  constructor
  · intro env h
    unfold probe
    rw [h]
  · intro env d h
    constructor
    · unfold probe
      rw [h]
    · exact binkp_node_parse_result_nonneg env d h

/-- C4: on every successfully parsed remote instant, `localNow` is
`datetime.now(binkpdate.tzinfo)` — the current instant observed with the
parsed remote instant's own tzinfo — and the returned drift is the
absolute value of `observedDelta` minus the probe's measured duration. -/
theorem C4_drift_is_abs_delta_minus_roundtrip (env : Env) (buf : List Nat)
    (nt : List Char) (bd : PyDateTime) (h0 : env.socketOk = true)
    (h1 : env.connect = .success) (h2 : drain env.recvEvents = some buf)
    (h3 : buf ≠ []) (h4 : extractTimeText (greedyRangeParse buf) = some nt)
    (h5 : env.dateparse nt = some bd) :
    (binkp_node_parse env).result =
      some |pySub (pyNow env.todayAt env.localOff bd.tz) bd -
            ((env.finalAt + env.localOff) - (env.entryAt + env.localOff))| :=
  binkp_node_parse_success env buf nt bd h0 h1 h2 h3 h4 h5

/-- C4 witness: the concrete successful run `envOk` (remote instant aware
at offset +3600). -/
theorem C4_drift_is_abs_delta_minus_roundtrip_witness :
    envOk.socketOk = true ∧ envOk.connect = .success ∧
    drain envOk.recvEvents = some ([1, 11, 0] ++ timeBytes) ∧
    ([1, 11, 0] ++ timeBytes) ≠ ([] : List Nat) ∧
    extractTimeText (greedyRangeParse ([1, 11, 0] ++ timeBytes)) =
      some ['1', '2', ':', '0', '0'] ∧
    envOk.dateparse ['1', '2', ':', '0', '0'] = some ⟨1000, some 3600⟩ ∧
    (binkp_node_parse envOk).result =
      some |pySub (pyNow envOk.todayAt envOk.localOff (some 3600)) ⟨1000, some 3600⟩ -
            ((envOk.finalAt + envOk.localOff) - (envOk.entryAt + envOk.localOff))| :=
  ⟨by decide, by decide, by decide, by decide, by decide, by decide,
   C4_drift_is_abs_delta_minus_roundtrip envOk ([1, 11, 0] ++ timeBytes)
     ['1', '2', ':', '0', '0'] ⟨1000, some 3600⟩
     (by decide) (by decide) (by decide) (by decide) (by decide) (by decide)⟩

/-- C5: a buffer that is exactly the concatenation of well-formed frames
decodes to exactly those frames, in wire order, none dropped, duplicated
or reordered; in particular each decoded frame's payload has exactly
`length - 1` bytes. -/
theorem C5_wellformed_frames_decode_exactly (fs : List Frame)
    (h : ∀ f ∈ fs, wfFrame f) :
    greedyRangeParse (encodeFrames fs) = fs ∧
    ∀ f ∈ greedyRangeParse (encodeFrames fs), f.string.length = f.length - 1 := by
  have main : greedyRangeParse (encodeFrames fs) = fs := by
    induction fs with
    | nil => rfl
    | cons f rest ih =>
      have hf : wfFrame f := h f (by simp)
      have hrest : ∀ g ∈ rest, wfFrame g := fun g hg => h g (by simp [hg])
      show greedyRangeParse (encodeFrame f ++ encodeFrames rest) = f :: rest
      rw [greedyRangeParse_cons (binkp10format_encode f (encodeFrames rest) hf)]
      rw [ih hrest]
  refine ⟨main, ?_⟩
  rw [main]
  intro f hf
  exact ((h f hf).2.1)

/-- C5 witness: two concrete well-formed frames (one with the high type
bit set and an empty payload) decode back to themselves. -/
theorem C5_wellformed_frames_decode_exactly_witness :
    (∀ f ∈ [frT, (⟨128, 1, 0, []⟩ : Frame)], wfFrame f) ∧
    greedyRangeParse (encodeFrames [frT, (⟨128, 1, 0, []⟩ : Frame)]) =
      [frT, (⟨128, 1, 0, []⟩ : Frame)] :=
  ⟨by decide,
   (C5_wellformed_frames_decode_exactly [frT, (⟨128, 1, 0, []⟩ : Frame)] (by decide)).1⟩

/-- C6 counterexample: in the run `envC6` the connection succeeds at
instant 5 and the read loop ends at instant 9 (observed delta 9), so the
claim's `roundTrip = endedAt - startedAt` is 4 and the claimed drift
`|9 - 4|` is 5 — but the source returns 3, because it subtracts
`datetime.now() - start_time` = 12 - 0, sampled at function entry and
during drift computation. -/
theorem C6_roundtrip_sampling_counterexample :
    (binkp_node_parse envC6).result = some 3 ∧
    pySub (pyNow envC6.todayAt envC6.localOff none) ⟨0, none⟩ = 9 ∧
    envC6.loopEndAt - envC6.connectedAt = 4 ∧
    (3 : Int) ≠ |(9 : Int) - 4| := by
  refine ⟨by decide, by decide, by decide, by decide⟩

/-- The scan loop reads only the clock samples, the zone offset and the
date parser out of the environment. -/
theorem processItems_congr (env₁ env₂ : Env) (st : Int)
    (hdp : env₁.dateparse = env₂.dateparse) (ht : env₁.todayAt = env₂.todayAt)
    (hl : env₁.localOff = env₂.localOff) (hf : env₁.finalAt = env₂.finalAt) :
    processItems env₁ st = processItems env₂ st := by
  funext fs
  induction fs with
  | nil => rfl
  | cons item rest ih =>
    cases hd : pyDecodeAscii item.string with
    | none =>
      simp only [processItems, hd]
      rw [ih]
    | some d_item =>
      by_cases hp : TIMEP.isPrefixOf d_item = true
      · simp only [processItems, hd, hp, if_true, hdp, ht, hl, hf]
      · simp only [Bool.not_eq_true] at hp
        simp only [processItems, hd, hp, Bool.false_eq_true, if_false]
        exact ih

/-- The try body reads neither `connectedAt` nor `loopEndAt`: environments
agreeing on every other field produce the same run. -/
theorem binkp_node_parse_body_congr (env₁ env₂ : Env)
    (hl : env₁.localOff = env₂.localOff) (he : env₁.entryAt = env₂.entryAt)
    (hs : env₁.socketOk = env₂.socketOk) (hc : env₁.connect = env₂.connect)
    (hr : env₁.recvEvents = env₂.recvEvents) (hdp : env₁.dateparse = env₂.dateparse)
    (ht : env₁.todayAt = env₂.todayAt) (hf : env₁.finalAt = env₂.finalAt) :
    binkp_node_parse_body env₁ = binkp_node_parse_body env₂ := by
  have hpi := processItems_congr env₁ env₂ (env₂.entryAt + env₂.localOff) hdp ht hl hf
  simp only [binkp_node_parse_body]
  rw [hl, he, hs, hc, hr, hpi]

/-- C6 amended: the subtracted round-trip is `finalAt - entryAt`, where
`entryAt` is sampled at function entry (before the connection attempt) and
`finalAt` during drift computation (after decoding, extraction and date
parsing); the instants of connection success and loop termination are
never sampled and have no effect on the probe's outcome. -/
theorem C6_roundtrip_entry_to_final_amended :
    (∀ (env : Env) (a b : Int),
        binkp_node_parse { env with connectedAt := a, loopEndAt := b } =
          binkp_node_parse env) ∧
    (∀ (env : Env) (buf : List Nat) (nt : List Char) (bd : PyDateTime),
        env.socketOk = true → env.connect = .success →
        drain env.recvEvents = some buf → buf ≠ [] →
        extractTimeText (greedyRangeParse buf) = some nt →
        env.dateparse nt = some bd →
        (binkp_node_parse env).result =
          some |pySub (pyNow env.todayAt env.localOff bd.tz) bd -
                (env.finalAt - env.entryAt)|) := by
  constructor
  · intro env a b
    have hb := binkp_node_parse_body_congr { env with connectedAt := a, loopEndAt := b }
      env rfl rfl rfl rfl rfl rfl rfl rfl
    unfold binkp_node_parse
    rw [hb]
  · intro env buf nt bd h0 h1 h2 h3 h4 h5
    rw [binkp_node_parse_success env buf nt bd h0 h1 h2 h3 h4 h5]
    have harith : (env.finalAt + env.localOff) - (env.entryAt + env.localOff) =
        env.finalAt - env.entryAt := by ring
    rw [harith]

/-- C6 amended witness: replacing the never-sampled instants in `envOk`
leaves the run unchanged, and the drift formula holds on `envOk`. -/
theorem C6_roundtrip_entry_to_final_amended_witness :
    binkp_node_parse { envOk with connectedAt := 77, loopEndAt := 99 } =
      binkp_node_parse envOk ∧
    envOk.dateparse ['1', '2', ':', '0', '0'] = some ⟨1000, some 3600⟩ ∧
    (binkp_node_parse envOk).result =
      some |pySub (pyNow envOk.todayAt envOk.localOff (some 3600)) ⟨1000, some 3600⟩ -
            (envOk.finalAt - envOk.entryAt)| :=
  ⟨C6_roundtrip_entry_to_final_amended.1 envOk 77 99,
   by decide,
   C6_roundtrip_entry_to_final_amended.2 envOk ([1, 11, 0] ++ timeBytes)
     ['1', '2', ':', '0', '0'] ⟨1000, some 3600⟩
     (by decide) (by decide) (by decide) (by decide) (by decide) (by decide)⟩

/-- C7: whenever a socket was created, the `finally` block has closed it
by the time `binkp_node_parse` returns, on every exit path. -/
theorem C7_socket_closed_on_every_exit (env : Env) (h : env.socketOk = true) :
    (binkp_node_parse env).socketClosed = true :=
  h

/-- C7 witness: the empty-response run creates a socket and ends with it
closed. -/
theorem C7_socket_closed_on_every_exit_witness :
    envEmptyResp.socketOk = true ∧
    (binkp_node_parse envEmptyResp).socketClosed = true :=
  ⟨by decide, C7_socket_closed_on_every_exit envEmptyResp (by decide)⟩

/-- C8: a successful connection whose drained buffer is empty fails with
`None` and the no-data diagnostic — nothing reaches the frame decoder, and
the diagnostic differs from the frame-decode-error diagnostic. -/
theorem C8_empty_buffer_fails_before_decoding (env : Env)
    (h0 : env.socketOk = true) (h1 : env.connect = .success)
    (h2 : drain env.recvEvents = some []) :
    (binkp_node_parse env).result = none ∧
    (binkp_node_parse env).diags = [Diag.noDataReceived] ∧
    Diag.noDataReceived ≠ Diag.errorParsingBinkp := by
  have hb : binkp_node_parse_body env = (none, [Diag.noDataReceived]) := by
    unfold binkp_node_parse_body
    rw [h0]
    simp [h1, h2]
  refine ⟨?_, ?_, by decide⟩
  · show (binkp_node_parse_body env).1 = none
    rw [hb]
  · show (binkp_node_parse_body env).2 = _
    rw [hb]

/-- C8 witness: the concrete run whose only receive event is a read
timeout. -/
theorem C8_empty_buffer_fails_before_decoding_witness :
    envEmptyResp.socketOk = true ∧ envEmptyResp.connect = .success ∧
    drain envEmptyResp.recvEvents = some [] ∧
    (binkp_node_parse envEmptyResp).result = none ∧
    (binkp_node_parse envEmptyResp).diags = [Diag.noDataReceived] :=
  ⟨by decide, by decide, by decide,
   (C8_empty_buffer_fails_before_decoding envEmptyResp (by decide) (by decide)
     (by decide)).1,
   (C8_empty_buffer_fails_before_decoding envEmptyResp (by decide) (by decide)
     (by decide)).2.1⟩

/-- C9 counterexample: with the header `(0x01, 0x0A, 0x00)` the declared
payload is 9 bytes, so of `TIME 12:00` only `TIME 12:0` lands in the
frame and extraction yields `12:0`, not `12:00` as the claim states. -/
theorem C9_scenario_b_counterexample :
    extractTimeText (greedyRangeParse ([1, 10, 0] ++ timeBytes)) =
      some ['1', '2', ':', '0'] ∧
    some ['1', '2', ':', '0'] ≠ some ['1', '2', ':', '0', '0'] := by
  refine ⟨by decide, by decide⟩

/-- C9 amended: with the length field equal to payload length + 1 — header
`(0x01, 0x0B, 0x00)` for the 10-byte payload `TIME 12:00` — decoding
followed by extraction yields the timestamp text `12:00`. -/
theorem C9_scenario_b_amended :
    extractTimeText (greedyRangeParse ([1, 11, 0] ++ timeBytes)) =
      some ['1', '2', ':', '0', '0'] := by
  decide

/-- C10: a frame whose payload contains a byte ≥ 0x80 fails the strict
ASCII decode; the scan prints the item-error diagnostic and continues with
the next frame, so such a frame is never selected as the TIME message. -/
theorem C10_nonascii_payload_skipped (env : Env) (st : Int) (f : Frame)
    (fs : List Frame) (h : ∃ b ∈ f.string, 128 ≤ b) :
    processItems env st (f :: fs) =
      ((processItems env st fs).1,
        Diag.errorProcessingItem :: (processItems env st fs).2) := by
  have hd : pyDecodeAscii f.string = none := by
    obtain ⟨b, hb1, hb2⟩ := h
    unfold pyDecodeAscii
    rw [if_neg (fun hall => absurd (hall b hb1) (by omega))]
  simp only [processItems, hd]

/-- C10 witness: the frame whose payload is the valid UTF-8 text `TIME é`
(bytes ≥ 0x80) is skipped even though its text begins with `TIME `, and
the scan continues with the following ASCII TIME frame. -/
theorem C10_nonascii_payload_skipped_witness :
    (∃ b ∈ frUtf8.string, 128 ≤ b) ∧
    processItems envOk 0 [frUtf8, frT] =
      ((processItems envOk 0 [frT]).1,
        Diag.errorProcessingItem :: (processItems envOk 0 [frT]).2) :=
  ⟨by decide, C10_nonascii_payload_skipped envOk 0 frUtf8 [frT] (by decide)⟩

/-- C3 amended witness: the no-TIME run is reported as `-1`, and the
successful run `envOk` is reported as its non-negative drift 7193. -/
theorem C3_single_sentinel_amended_witness :
    (binkp_node_parse envNoTime).result = none ∧ probe envNoTime = -1 ∧
    (binkp_node_parse envOk).result = some 7193 ∧ probe envOk = 7193 ∧ (0 : Int) ≤ 7193 :=
  ⟨by decide,
   C3_single_sentinel_amended.1 envNoTime (by decide),
   by decide,
   (C3_single_sentinel_amended.2 envOk 7193 (by decide)).1,
   (C3_single_sentinel_amended.2 envOk 7193 (by decide)).2⟩
